import Mathlib

/-!
Shallow embedding of the GCE manager of the cluster autoscaler
(cluster-autoscaler/cloudprovider/gce/gce_manager.go): the node-group
registry, the instance-to-group attribution cache and its regeneration,
the operation poller, instance deletion, and node-pool discovery.
Cloud collaborators (compute and cluster-manager clients, template
builder) are modelled as explicit function-valued environments; durations
are modelled in milliseconds with one poll per poll interval.
-/

set_option maxHeartbeats 1000000

namespace GceManagerModel

/-- Identity of a cloud compute resource: owning project, zone, name
(source: GceRef, used as the map key of the attribution cache). -/
structure GceRef where
  project : String
  zone : String
  name : String
deriving DecidableEq, Repr

/-- A managed instance group serving as a node group (source: Mig).
The back-pointer to the manager is a non-owning association and is not
part of the value; the remaining fields are embedded as in the source. -/
structure Mig where
  gceRef : GceRef
  minSize : Int
  maxSize : Int
  exist : Bool
  autoprovisioned : Bool
deriving DecidableEq, Repr

/-- Registry entry pairing a node-group config with its discovered
basename (source: migInformation). -/
structure migInformation where
  config : Mig
  basename : String
deriving DecidableEq, Repr

/-- The mutable state of the manager that the embedded operations touch:
the registered groups and the attribution cache. The cache is an
association list in which the most recent insertion is at the head, so
that first-match lookup gives Go-map semantics (last write wins). The
zone/project/clusterName fields of the source are absorbed into the
collaborator environment closures. -/
structure GceManager where
  migs : List migInformation
  migCache : List (GceRef × Mig)
deriving DecidableEq, Repr

/-- A handle of an asynchronous cloud operation (the fields of the
source gce.Operation that the manager reads). -/
structure GceOperation where
  name : String
  targetLink : String
deriving DecidableEq, Repr

/-- The fields of an InstanceGroupManager resource read by the manager. -/
structure InstanceGroupManager where
  baseInstanceName : String
  targetSize : Int
deriving DecidableEq, Repr

/-- Autoscaling configuration of a managed-cluster node pool (the fields
of the source gke NodePoolAutoscaling that the manager reads). -/
structure NodePoolAutoscaling where
  enabled : Bool
  minNodeCount : Int
  maxNodeCount : Int
deriving DecidableEq, Repr

/-- A managed-cluster node pool (the fields of the source gke.NodePool
that the manager reads); autoscaling may be absent (nil). -/
structure NodePool where
  name : String
  autoscaling : Option NodePoolAutoscaling
  instanceGroupUrls : List String
deriving DecidableEq, Repr

/-- A schedulable node template (opaque payload of the template builder). -/
structure NodeTemplate where
  raw : String
deriving DecidableEq, Repr

/-- The cloud collaborator environment: each field is one collaborator
call of the source, returning a value or an error. The operation-status
poll additionally takes the poll index, modelling the state of the world
at successive poll instants. -/
structure CloudEnv where
  getInstanceGroupManager : GceRef → Except String InstanceGroupManager
  listManagedInstances : GceRef → Except String (List String)
  deleteInstancesCall : GceRef → List String → Except String GceOperation
  getZoneOperation : String → String → String → Nat → Except String String
  listNodePools : Except String (List NodePool)

/-- The template-builder collaborator (source: templateBuilder); its
results are only logged by registration, never acted on. -/
structure TemplateBuilder where
  getMigTemplate : Mig → Except String NodeTemplate
  buildNodeFromTemplate : Mig → Except String NodeTemplate → Except String Unit

/-- Reserved name marker of autoprovisioned node pools (source constant
nodeAutoprovisioningPrefix = "nodeautoprovisioning"). -/
def nodeAutoprovisioningMarker : String := "nodeautoprovisioning"

/-- Fixed operation-poller timeout in milliseconds (source constant
operationWaitTimeout = 5 * time.Second). -/
def operationWaitTimeout : Nat := 5000

/-- Fixed poll interval in milliseconds (source constant
operationPollInterval = 100 * time.Millisecond). -/
def operationPollInterval : Nat := 100

/-- Modelled from the spec: fixed default minimum size for
autoprovisioned pools (constant minAutoprovisionedSize, defined outside
the given source file). Its concrete value is irrelevant to the claims. -/
def minAutoprovisionedSize : Int := 0

/-- Modelled from the spec: fixed default maximum size for
autoprovisioned pools (constant maxAutoprovisionedSize, defined outside
the given source file). Its concrete value is irrelevant to the claims. -/
def maxAutoprovisionedSize : Int := 1000

/-- Decidable check that the first character list starts with the second. -/
def charsStartWith : List Char → List Char → Bool
  | _, [] => true
  | [], _ :: _ => false
  | c :: cs, d :: ds => c == d && charsStartWith cs ds

/-- Decidable substring containment on character lists: sub occurs
contiguously in the second argument. -/
def charsContain (sub : List Char) : List Char → Bool
  | [] => sub.isEmpty
  | c :: cs => charsStartWith (c :: cs) sub || charsContain sub cs

/-- Go strings.Contains: sub occurs as a substring of s. -/
def goStringContains (s sub : String) : Bool :=
  charsContain sub.toList s.toList

/-- Go strings.HasPrefix: s starts with pre (true for an empty pre). -/
def goStringHasPfx (s pre : String) : Bool :=
  charsStartWith s.toList pre.toList

/-- Helper of splitOnSlashes: accumulate the current segment (reversed)
and emit it at each slash and at the end. -/
def splitSegAux : List Char → List Char → List (List Char)
  | [], acc => [acc.reverse]
  | c :: cs, acc =>
    if c == '/' then acc.reverse :: splitSegAux cs []
    else splitSegAux cs (c :: acc)

/-- Splitting a string on the slash separator (the behavior of
strings.Split / String.splitOn for a one-character separator). -/
def splitOnSlashes (s : String) : List String :=
  (splitSegAux s.toList []).map List.asString

/-- Modelled from the spec: parseGceUrl (defined outside the given
source file) parses a self-link URL of the form
.../projects/P/zones/Z/collectionKind/NAME into a resource identity and
fails when the URL does not end in the expected segments for the
requested collection kind. -/
def parseGceUrl (url expectedKind : String) : Except String GceRef :=
  let parts := splitOnSlashes url
  if parts.length ≥ 6 then
    match parts.drop (parts.length - 6) with
    | [kw1, p, kw2, z, kind, n] =>
      if kw1 = "projects" ∧ kw2 = "zones" ∧ kind = expectedKind then
        .ok ⟨p, z, n⟩
      else
        .error ("MalformedReference: " ++ url)
    | _ => .error ("MalformedReference: " ++ url)
  else
    .error ("MalformedReference: " ++ url)

/-- Modelled from the spec: ParseInstanceUrl (defined outside the given
source file) parses an instance self-link URL. -/
def ParseInstanceUrl (url : String) : Except String GceRef :=
  parseGceUrl url "instances"

/-- Modelled from the spec: GenerateInstanceUrl (defined outside the
given source file) renders an identity as the canonical instance
reference string. -/
def GenerateInstanceUrl (project zone name : String) : String :=
  "gce://" ++ project ++ "/" ++ zone ++ "/" ++ name

/-- First-match lookup in the attribution cache (Go map indexing
m.migCache[instance]; found means some). -/
def cacheFind (cache : List (GceRef × Mig)) (r : GceRef) : Option Mig :=
  (cache.find? (fun p => decide (p.1 = r))).map (fun p => p.2)

/-- getMigs: point-in-time copy of the registry records (source getMigs,
which rebuilds each record from its basename and config fields). -/
def getMigs (m : GceManager) : List migInformation :=
  m.migs.map (fun mig => { basename := mig.basename, config := mig.config })

/-- The registry-list update performed by RegisterMig: every record whose
identity equals the new group's identity has its config replaced in
place; when no record matched, a fresh record with empty basename is
appended. -/
def registerCore (migs : List migInformation) (mig : Mig) : List migInformation :=
  let updated := migs.any (fun mi => decide (mi.config.gceRef = mig.gceRef))
  let migs' := migs.map (fun mi =>
    if mi.config.gceRef = mig.gceRef then { mi with config := mig } else mi)
  if updated then migs' else migs' ++ [{ config := mig, basename := "" }]

/-- RegisterMig: registers mig in the manager, returning true when the
group did not exist before. The template-builder collaborator is called
twice (getMigTemplate, then buildNodeFromTemplate on its result) and both
outcomes are only logged in the source, so they are bound and discarded
here. -/
def RegisterMig (tb : TemplateBuilder) (m : GceManager) (mig : Mig) :
    GceManager × Bool :=
  let updated := m.migs.any (fun mi => decide (mi.config.gceRef = mig.gceRef))
  let migs2 := registerCore m.migs mig
  let templateRes := tb.getMigTemplate mig
  let _nodeRes := tb.buildNodeFromTemplate mig templateRes
  ({ m with migs := migs2 }, !updated)

/-- Inner member loop of regenerateCache: parse each instance URL and
insert the entry, newest at the head so that a later duplicate key wins
on lookup, as for a Go map write. The first parse error aborts. -/
def insertMembers (mig : Mig) :
    List String → List (GceRef × Mig) → Except String (List (GceRef × Mig))
  | [], acc => .ok acc
  | url :: urls, acc =>
    match ParseInstanceUrl url with
    | .error e => .error e
    | .ok ref => insertMembers mig urls ((ref, mig) :: acc)

/-- The loop of regenerateCache over the registry snapshot: for each
record, fetch the instance group manager (its BaseInstanceName is written
into the snapshot copy, a dead store in the source), list its managed
instances, and insert each parsed member into the replacement map being
built. The first error aborts the whole build. -/
def buildMigCache (env : CloudEnv) :
    List migInformation → List (GceRef × Mig) → Except String (List (GceRef × Mig))
  | [], acc => .ok acc
  | migInfo :: rest, acc =>
    let mig := migInfo.config
    match env.getInstanceGroupManager mig.gceRef with
    | .error e => .error e
    | .ok igm =>
      let _migInfoCopyWithBasename := { migInfo with basename := igm.baseInstanceName }
      match env.listManagedInstances mig.gceRef with
      | .error e => .error e
      | .ok urls =>
        match insertMembers mig urls acc with
        | .error e => .error e
        | .ok acc' => buildMigCache env rest acc'

/-- regenerateCache: rebuilds the attribution cache from a registry
snapshot. The replacement map is built locally; only on success is it
installed as the new cache (the single write to manager state in the
source), so an error leaves the manager untouched. Returns the updated
manager and the optional error. -/
def regenerateCache (env : CloudEnv) (m : GceManager) : GceManager × Option String :=
  match buildMigCache env (getMigs m) [] with
  | .error e => (m, some e)
  | .ok cache => ({ m with migCache := cache }, none)

/-- Injection of Except into Sum, used to decide equality of results. -/
def exceptToSum {ε α : Type} : Except ε α → ε ⊕ α
  | .error e => .inl e
  | .ok a => .inr a

instance {ε α : Type} [DecidableEq ε] [DecidableEq α] :
    DecidableEq (Except ε α) := fun x y =>
  decidable_of_iff (exceptToSum x = exceptToSum y)
    (by cases x <;> cases y <;> simp [exceptToSum])

/-- Result of a GetMigForInstance call: the manager state after the call,
the number of cache regenerations it triggered, and the outcome — an
error, or an optional owning group (none meaning the instance belongs to
no configured group). -/
structure LookupResult where
  manager : GceManager
  regenCalls : Nat
  result : Except String (Option Mig)
deriving DecidableEq, Repr

/-- The record predicate of the slow path of GetMigForInstance: project
and zone match and the record's basename is a prefix of the instance
name (Go strings.HasPrefix; an empty basename is a prefix of every
name). -/
def migMatches (instance_ : GceRef) (mi : migInformation) : Bool :=
  decide (mi.config.gceRef.project = instance_.project) &&
  decide (mi.config.gceRef.zone = instance_.zone) &&
  goStringHasPfx instance_.name mi.basename

/-- The wrapped error message returned when a forced regeneration fails
during lookup. -/
def lookupRegenErrorMsg (instance_ : GceRef) (e : String) : String :=
  "Error while looking for MIG for instance " ++ instance_.project ++ "/" ++
    instance_.zone ++ "/" ++ instance_.name ++ ", error: " ++ e

/-- The error message returned when the instance is still absent from the
cache after a forced regeneration. -/
def lookupNotBelongMsg (instance_ : GceRef) : String :=
  "Instance " ++ instance_.project ++ "/" ++ instance_.zone ++ "/" ++
    instance_.name ++ " does not belong to any configured MIG"

/-- GetMigForInstance: fast path returns the cached owning group. On a
cache miss, the first registry record matching project, zone and
basename-prefix forces one synchronous regenerateCache, the cache is
re-checked, and a still-absent instance yields an error; when no record
matches, the non-error none result is returned without regeneration. -/
def GetMigForInstance (env : CloudEnv) (m : GceManager) (instance_ : GceRef) :
    LookupResult :=
  match cacheFind m.migCache instance_ with
  | some mig => { manager := m, regenCalls := 0, result := .ok (some mig) }
  | none =>
    match (getMigs m).find? (migMatches instance_) with
    | some _ =>
      match regenerateCache env m with
      | (m', some e) =>
        { manager := m', regenCalls := 1,
          result := .error (lookupRegenErrorMsg instance_ e) }
      | (m', none) =>
        match cacheFind m'.migCache instance_ with
        | some mig => { manager := m', regenCalls := 1, result := .ok (some mig) }
        | none =>
          { manager := m', regenCalls := 1,
            result := .error (lookupNotBelongMsg instance_) }
    | none => { manager := m, regenCalls := 0, result := .ok none }

/-- Number of poll iterations the wait loop performs: iteration i runs at
elapsed time i * operationPollInterval, and the loop guard admits it
while that is below operationWaitTimeout (poll call time idealized to
zero). -/
def pollIterations : Nat := operationWaitTimeout / operationPollInterval

/-- The timeout error message of waitForOp, naming the operation and its
target link. -/
def waitTimeoutMsg (op : GceOperation) : String :=
  "Timeout while waiting for operation " ++ op.name ++ " on " ++
    op.targetLink ++ " to complete."

/-- The wait loop of waitForOp: remaining iterations, current poll index,
and polls performed so far. A poll whose status is DONE returns success;
a non-terminal status or a transient poll error continues; exhausting the
iterations returns the timeout error. Returns the number of status polls
performed and the optional error. -/
def waitForOpAux (env : CloudEnv) (project zone : String) (op : GceOperation) :
    Nat → Nat → Nat → Nat × Option String
  | 0, _, polls => (polls, some (waitTimeoutMsg op))
  | rem + 1, i, polls =>
    match env.getZoneOperation project zone op.name i with
    | .ok status =>
      if status = "DONE" then (polls + 1, none)
      else waitForOpAux env project zone op rem (i + 1) (polls + 1)
    | .error _ => waitForOpAux env project zone op rem (i + 1) (polls + 1)

/-- waitForOp: polls the status of the operation at the fixed interval
until DONE or until the fixed timeout window is exhausted. -/
def waitForOp (env : CloudEnv) (project zone : String) (op : GceOperation) :
    Nat × Option String :=
  waitForOpAux env project zone op pollIterations 0 0

/-- Outcome of a DeleteInstances call, one constructor per return site of
the source: success; an error from a lookup; the cross-group error for
instances not belonging to the same group; the nil dereference that
building the request performs when every instance resolved to no group;
an error from the delete request itself; a poller timeout. -/
inductive DeleteOutcome where
  | success
  | lookupError (msg : String)
  | crossGroupError
  | nilMigPanic
  | requestError (msg : String)
  | opTimeout (msg : String)
deriving DecidableEq, Repr

/-- Result of a DeleteInstances call: manager state afterwards, cache
regenerations triggered via lookups, mutating cloud requests issued
(the delete call), and the outcome. -/
structure DeleteResult where
  manager : GceManager
  regenCalls : Nat
  mutatingCalls : Nat
  outcome : DeleteOutcome
deriving DecidableEq, Repr

/-- The per-instance check loop of DeleteInstances: look each instance up
(threading manager state and regeneration count); a lookup error or a
result different from the first instance's group aborts with the
corresponding outcome; none means every instance passed. -/
def deleteCheckLoop (env : CloudEnv) (m : GceManager) (regens : Nat)
    (commonMig : Option Mig) :
    List GceRef → GceManager × Nat × Option DeleteOutcome
  | [] => (m, regens, none)
  | inst :: rest =>
    let r := GetMigForInstance env m inst
    match r.result with
    | .error e => (r.manager, regens + r.regenCalls, some (.lookupError e))
    | .ok mig =>
      if mig = commonMig then
        deleteCheckLoop env r.manager (regens + r.regenCalls) commonMig rest
      else
        (r.manager, regens + r.regenCalls, some .crossGroupError)

/-- DeleteInstances: an empty list succeeds immediately. Otherwise the
first instance is looked up to fix the common group, every instance
(the first included) is re-checked against it, and only then is the
single batch delete request issued for the common group and awaited; a
common group of none reaches the request-building nil dereference of the
source. -/
def DeleteInstances (env : CloudEnv) (m : GceManager) (instances : List GceRef) :
    DeleteResult :=
  match instances with
  | [] => { manager := m, regenCalls := 0, mutatingCalls := 0, outcome := .success }
  | first :: _ =>
    let r0 := GetMigForInstance env m first
    match r0.result with
    | .error e =>
      { manager := r0.manager, regenCalls := r0.regenCalls, mutatingCalls := 0,
        outcome := .lookupError e }
    | .ok commonMig =>
      match deleteCheckLoop env r0.manager r0.regenCalls commonMig instances with
      | (m1, regens, some out) =>
        { manager := m1, regenCalls := regens, mutatingCalls := 0, outcome := out }
      | (m1, regens, none) =>
        match commonMig with
        | none =>
          { manager := m1, regenCalls := regens, mutatingCalls := 0,
            outcome := .nilMigPanic }
        | some cm =>
          let urls := instances.map (fun i =>
            GenerateInstanceUrl i.project i.zone i.name)
          match env.deleteInstancesCall cm.gceRef urls with
          | .error e =>
            { manager := m1, regenCalls := regens, mutatingCalls := 1,
              outcome := .requestError e }
          | .ok op =>
            match waitForOp env cm.gceRef.project cm.gceRef.zone op with
            | (_, none) =>
              { manager := m1, regenCalls := regens, mutatingCalls := 1,
                outcome := .success }
            | (_, some e) =>
              { manager := m1, regenCalls := regens, mutatingCalls := 1,
                outcome := .opTimeout e }

/-- The per-URL loop of fetchAllNodePools for one eligible pool: parse
the instance-group URL (a parse error aborts discovery, keeping the
groups registered so far), build the Mig with bounds from explicit
autoscaling when enabled, else the autoprovisioned defaults, and
register it. -/
def registerPoolUrls (tb : TemplateBuilder) (m : GceManager) (pool : NodePool)
    (autoprovisioned autoscaled : Bool) :
    List String → GceManager × Option String
  | [] => (m, none)
  | url :: rest =>
    match parseGceUrl url "instanceGroupManagers" with
    | .error e => (m, some e)
    | .ok ref =>
      let bounds : Int × Int :=
        match pool.autoscaling with
        | some a =>
          if autoscaled then (a.minNodeCount, a.maxNodeCount)
          else if autoprovisioned then (minAutoprovisionedSize, maxAutoprovisionedSize)
          else (0, 0)
        | none =>
          if autoprovisioned then (minAutoprovisionedSize, maxAutoprovisionedSize)
          else (0, 0)
      let mig : Mig :=
        { gceRef := ref, minSize := bounds.1, maxSize := bounds.2,
          exist := true, autoprovisioned := autoprovisioned }
      registerPoolUrls tb (RegisterMig tb m mig).1 pool autoprovisioned autoscaled rest

/-- The per-pool loop of fetchAllNodePools. The source computes the
autoprovisioned flag as strings.Contains("name", nodeAutoprovisioningPrefix),
a containment test on the literal string "name" rather than on the name
field of the pool; that expression is embedded literally here. A pool
neither autoprovisioned nor autoscaled is skipped. -/
def discoverPools (tb : TemplateBuilder) (m : GceManager) :
    List NodePool → GceManager × Option String
  | [] => (m, none)
  | pool :: rest =>
    let autoprovisioned := goStringContains "name" nodeAutoprovisioningMarker
    let autoscaled :=
      match pool.autoscaling with
      | some a => a.enabled
      | none => false
    if !autoprovisioned && !autoscaled then discoverPools tb m rest
    else
      match registerPoolUrls tb m pool autoprovisioned autoscaled
          pool.instanceGroupUrls with
      | (m', none) => discoverPools tb m' rest
      | (m', some e) => (m', some e)

/-- fetchAllNodePools: lists the node pools of the managed cluster and
registers node groups for the eligible ones. -/
def fetchAllNodePools (env : CloudEnv) (tb : TemplateBuilder) (m : GceManager) :
    GceManager × Option String :=
  match env.listNodePools with
  | .error e => (m, some e)
  | .ok pools => discoverPools tb m pools

/-- The manager state created by CreateGceManager before any discovery:
no registered groups, empty attribution cache. -/
def initialManager : GceManager := { migs := [], migCache := [] }

/-- Folding a sequence of RegisterMig calls from the initial manager. -/
def registerAll (tb : TemplateBuilder) (l : List Mig) : GceManager :=
  l.foldl (fun m g => (RegisterMig tb m g).1) initialManager

/-- First registry record with the given identity. -/
def findRecord (m : GceManager) (r : GceRef) : Option migInformation :=
  m.migs.find? (fun mi => decide (mi.config.gceRef = r))

/-- A template builder whose collaborator always fails (registration must
be insensitive to it). -/
def tbUnavailable : TemplateBuilder where
  getMigTemplate := fun _ => .error "no template"
  buildNodeFromTemplate := fun _ _ => .error "no template"

/-- A collaborator environment in which every call fails; used for
scenarios expected to make no collaborator call. -/
def envTrivial : CloudEnv where
  getInstanceGroupManager := fun _ => .error "unused"
  listManagedInstances := fun _ => .error "unused"
  deleteInstancesCall := fun _ _ => .error "unused"
  getZoneOperation := fun _ _ _ _ => .error "unused"
  listNodePools := .error "unused"

/-- A sample registered node group. -/
def mig1 : Mig where
  gceRef := { project := "p1", zone := "z1", name := "group-1" }
  minSize := 1
  maxSize := 5
  exist := true
  autoprovisioned := false

/-- A manager holding one registered group whose basename has never been
discovered (empty), with an empty attribution cache. -/
def managerOneGroup : GceManager where
  migs := [{ config := mig1, basename := "" }]
  migCache := []

/-- An environment in which fetching the instance group manager succeeds
with base instance name b and the group currently has no members. -/
def envBasenameB : CloudEnv where
  getInstanceGroupManager := fun _ =>
    .ok { baseInstanceName := "b", targetSize := 3 }
  listManagedInstances := fun _ => .ok []
  deleteInstancesCall := fun _ _ => .error "unused"
  getZoneOperation := fun _ _ _ _ => .error "unused"
  listNodePools := .error "unused"

/-- An environment in which fetching the instance group manager fails. -/
def envIgmFails : CloudEnv where
  getInstanceGroupManager := fun _ => .error "boom"
  listManagedInstances := fun _ => .error "boom"
  deleteInstancesCall := fun _ _ => .error "unused"
  getZoneOperation := fun _ _ _ _ => .error "unused"
  listNodePools := .error "unused"

/-- An instance in the project and zone of mig1 whose name no non-empty
basename prefixes. -/
def instanceY : GceRef := { project := "p1", zone := "z1", name := "inst-1" }

/-- An instance in a project where no group is registered. -/
def instanceOtherProject : GceRef :=
  { project := "p2", zone := "z1", name := "inst-9" }

/-- An instance named under the discovered basename of mig1. -/
def instanceW : GceRef := { project := "p1", zone := "z1", name := "base-1" }

/-- A manager whose cache already attributes instanceW to mig1. -/
def managerCached : GceManager where
  migs := [{ config := mig1, basename := "base" }]
  migCache := [(instanceW, mig1)]

/-- A manager with one record whose discovered basename is the non-empty
prefix base, and an empty attribution cache. -/
def managerBasenameBase : GceManager where
  migs := [{ config := mig1, basename := "base" }]
  migCache := []

/-- An environment in which the batch delete request succeeds and the
returned operation reports DONE on the first poll. -/
def envDeleteOk : CloudEnv where
  getInstanceGroupManager := fun _ => .error "unused"
  listManagedInstances := fun _ => .error "unused"
  deleteInstancesCall := fun _ _ => .ok { name := "op-1", targetLink := "target-1" }
  getZoneOperation := fun _ _ _ _ => .ok "DONE"
  listNodePools := .error "unused"

/-- An environment whose operation-status poll reports DONE immediately. -/
def envDoneAtOnce : CloudEnv where
  getInstanceGroupManager := fun _ => .error "unused"
  listManagedInstances := fun _ => .error "unused"
  deleteInstancesCall := fun _ _ => .error "unused"
  getZoneOperation := fun _ _ _ _ => .ok "DONE"
  listNodePools := .error "unused"

/-- A sample operation handle. -/
def opSample : GceOperation := { name := "op-7", targetLink := "tl-7" }

/-- An instance-group-manager self-link in project p1, zone z1. -/
def urlIGM (g : String) : String :=
  "https://www.googleapis.com/compute/v1/projects/p1/zones/z1/instanceGroupManagers/"
    ++ g

/-- A node pool with autoscaling explicitly enabled, bounds 1 to 5. -/
def poolAutoscaled : NodePool where
  name := "pool-a"
  autoscaling := some { enabled := true, minNodeCount := 1, maxNodeCount := 5 }
  instanceGroupUrls := [urlIGM "g-a"]

/-- A node pool whose own name carries the autoprovisioning marker, with
no autoscaling configuration. -/
def poolMarkerNamed : NodePool where
  name := "nodeautoprovisioning-pool-b"
  autoscaling := none
  instanceGroupUrls := [urlIGM "g-b"]

/-- A node pool with neither the marker name nor autoscaling enabled. -/
def poolNeither : NodePool where
  name := "pool-c"
  autoscaling := some { enabled := false, minNodeCount := 2, maxNodeCount := 7 }
  instanceGroupUrls := [urlIGM "g-c"]

/-- An environment listing the three sample pools. -/
def envThreePools : CloudEnv where
  getInstanceGroupManager := fun _ => .error "unused"
  listManagedInstances := fun _ => .error "unused"
  deleteInstancesCall := fun _ _ => .error "unused"
  getZoneOperation := fun _ _ _ _ => .error "unused"
  listNodePools := .ok [poolAutoscaled, poolMarkerNamed, poolNeither]

end GceManagerModel


namespace GceManagerModel

/-- Registry preservation: regenerateCache replaces only the attribution
cache; the registry list of the resulting manager is the input's. -/
theorem regenerateCache_migs_eq (env : CloudEnv) (m : GceManager) :
    (regenerateCache env m).1.migs = m.migs := by
  rcases hb : buildMigCache env (getMigs m) [] with e | c <;>
    simp [regenerateCache, hb]

/-- C9: DeleteInstances on the empty instance list returns success
immediately, with no regeneration, no mutating cloud request, and the
manager state unchanged. -/
theorem deleteInstances_empty_noop (env : CloudEnv) (m : GceManager) :
    DeleteInstances env m [] =
      { manager := m, regenCalls := 0, mutatingCalls := 0,
        outcome := .success } := rfl

/-- C8: the result of RegisterMig (both the updated manager and the
returned freshness flag) is the same under any two template-builder
collaborators, in particular under an always-failing one; the source
signature returns only a bool, so no error can be returned at all. -/
theorem registerMig_template_independent (tb tb' : TemplateBuilder)
    (m : GceManager) (mig : Mig) :
    RegisterMig tb m mig = RegisterMig tb' m mig := rfl

/-- C10: neither GetMigForInstance nor regenerateCache changes the group
registry: the resulting registry list (identities, order, configs and
basenames of every record) equals the input's; only the attribution
cache is written. -/
theorem lookup_and_regen_preserve_registry (env : CloudEnv) (m : GceManager)
    (i : GceRef) :
    (GetMigForInstance env m i).manager.migs = m.migs ∧
    (regenerateCache env m).1.migs = m.migs := by
  refine ⟨?_, regenerateCache_migs_eq env m⟩
  unfold GetMigForInstance
  rcases hc : cacheFind m.migCache i with _ | g
  · rcases hf : (getMigs m).find? (migMatches i) with _ | mi
    · simp [hc, hf]
    · rcases hr : regenerateCache env m with ⟨m', oe⟩
      have hm' : m'.migs = m.migs := by
        have h := regenerateCache_migs_eq env m
        rw [hr] at h
        exact h
      rcases oe with _ | e
      · rcases hc2 : cacheFind m'.migCache i with _ | g2 <;>
          simp [hc, hf, hr, hc2, hm']
      · simp [hc, hf, hr, hm']
  · simp [hc]

/-- C5: regenerateCache is atomic with respect to the cache: when the
build of the replacement map fails, the error is returned and the manager
(hence the previously installed cache map) is completely unchanged; when
it succeeds, exactly the freshly built replacement map is installed
wholesale and nothing else of the manager changes. -/
theorem regenerateCache_atomic (env : CloudEnv) (m : GceManager) :
    (∀ e, buildMigCache env (getMigs m) [] = .error e →
       regenerateCache env m = (m, some e)) ∧
    (∀ cache, buildMigCache env (getMigs m) [] = .ok cache →
       regenerateCache env m = ({ m with migCache := cache }, none)) := by
  constructor
  · intro e he
    simp [regenerateCache, he]
  · intro c hc
    simp [regenerateCache, hc]

/-- Witness for C5 at a concrete input: the environment whose collaborator
call fails leaves the one-group manager untouched and surfaces the error. -/
theorem regenerateCache_atomic_witness :
    regenerateCache envIgmFails managerOneGroup = (managerOneGroup, some "boom") :=
  (regenerateCache_atomic envIgmFails managerOneGroup).1 "boom" (by decide)

/-- C3: the basename fetched by a successful regeneration is not stored in
the registry record. At the concrete input, the collaborator fetch for the
registered group succeeds with base instance name b and regeneration
succeeds, yet the registry record of the group still carries the empty
basename: the source writes the fetched name into the snapshot copy
returned by getMigs, a dead store, so the recorded basename never becomes
non-empty. -/
theorem regenerateCache_basename_dead_store :
    (regenerateCache envBasenameB managerOneGroup).2 = none ∧
    (envBasenameB.getInstanceGroupManager mig1.gceRef).map
        (fun igm => igm.baseInstanceName) = .ok "b" ∧
    (regenerateCache envBasenameB managerOneGroup).1.migs =
      [{ config := mig1, basename := "" }] := by decide

/-- C1: discovery at a concrete pool listing containing an autoscaled pool
(bounds 1 to 5), a pool whose own name carries the autoprovisioning marker
with autoscaling absent, and a pool with neither property. The source
computes the autoprovisioned flag as strings.Contains("name", prefix) over
the literal string "name", which is always false, so discovery registers
only the autoscaled pool's group and silently skips the marker-named pool
that the claim says must be registered with the default bounds. -/
theorem fetchAllNodePools_marker_check_bug :
    fetchAllNodePools envThreePools tbUnavailable initialManager =
      ({ migs := [{ config := { gceRef := { project := "p1", zone := "z1",
                                            name := "g-a" },
                                minSize := 1, maxSize := 5, exist := true,
                                autoprovisioned := false },
                    basename := "" }],
         migCache := [] }, none) := by decide

end GceManagerModel

namespace GceManagerModel

/-- Counterexample to C2 as stated: the registered record's basename base
is a non-empty prefix of the instance name base-1 with matching project
and zone, the forced regeneration succeeds, and the instance is still
absent from the rebuilt cache — the code then returns an error, not the
claimed non-error unattributed nil sentinel. -/
theorem getMigForInstance_sentinel_counterexample :
    (GetMigForInstance envBasenameB managerBasenameBase instanceW).regenCalls = 1 ∧
    (GetMigForInstance envBasenameB managerBasenameBase instanceW).result =
      .error (lookupNotBelongMsg instanceW) ∧
    (GetMigForInstance envBasenameB managerBasenameBase instanceW).result ≠
      .ok none := by decide

/-- C2 (amended): for an instance absent from the cache, if some record
matches on project, zone and basename-prefix — where an empty basename,
the state before any successful basename fetch, prefixes every name —
lookup forces exactly one synchronous regeneration and re-checks the
cache; a still-absent instance yields an attribution error (not the nil
sentinel), and a failed regeneration yields the wrapped error. Only when
no record matches is the non-error nil result returned with no
regeneration; a cache hit also returns without regeneration. -/
theorem getMigForInstance_amended_spec (env : CloudEnv) (m : GceManager)
    (i : GceRef) :
    (∀ g, cacheFind m.migCache i = some g →
       GetMigForInstance env m i =
         { manager := m, regenCalls := 0, result := .ok (some g) }) ∧
    (cacheFind m.migCache i = none →
       (getMigs m).find? (migMatches i) = none →
       GetMigForInstance env m i =
         { manager := m, regenCalls := 0, result := .ok none }) ∧
    (∀ mi, cacheFind m.migCache i = none →
       (getMigs m).find? (migMatches i) = some mi →
       (GetMigForInstance env m i).regenCalls = 1 ∧
       (∀ e, (regenerateCache env m).2 = some e →
          GetMigForInstance env m i =
            { manager := (regenerateCache env m).1, regenCalls := 1,
              result := .error (lookupRegenErrorMsg i e) }) ∧
       ((regenerateCache env m).2 = none →
          (∀ g, cacheFind (regenerateCache env m).1.migCache i = some g →
             GetMigForInstance env m i =
               { manager := (regenerateCache env m).1, regenCalls := 1,
                 result := .ok (some g) }) ∧
          (cacheFind (regenerateCache env m).1.migCache i = none →
             GetMigForInstance env m i =
               { manager := (regenerateCache env m).1, regenCalls := 1,
                 result := .error (lookupNotBelongMsg i) }))) := by
  refine ⟨?_, ?_, ?_⟩
  · intro g hg
    simp [GetMigForInstance, hg]
  · intro hc hf
    simp [GetMigForInstance, hc, hf]
  · intro mi hc hf
    rcases hr : regenerateCache env m with ⟨m', oe⟩
    rcases oe with _ | e
    · refine ⟨?_, ?_, ?_⟩
      · rcases hc2 : cacheFind m'.migCache i with _ | g2 <;>
          simp [GetMigForInstance, hc, hf, hr, hc2]
      · intro e h
        simp at h
      · intro _
        constructor
        · intro g hg
          simp only [] at hg
          simp [GetMigForInstance, hc, hf, hr, hg]
        · intro hg
          simp only [] at hg
          simp [GetMigForInstance, hc, hf, hr, hg]
    · refine ⟨?_, ?_, ?_⟩
      · simp [GetMigForInstance, hc, hf, hr]
      · intro e' h
        simp at h
        subst h
        simp [GetMigForInstance, hc, hf, hr]
      · intro h
        simp at h

/-- Witness for C2 (amended) at a concrete input: an instance in a project
with no matching record is answered with the non-error nil result and no
regeneration. -/
theorem getMigForInstance_amended_spec_witness :
    GetMigForInstance envTrivial managerOneGroup instanceOtherProject =
      { manager := managerOneGroup, regenCalls := 0, result := .ok none } :=
  (getMigForInstance_amended_spec envTrivial managerOneGroup
    instanceOtherProject).2.1 (by decide) (by decide)

end GceManagerModel

namespace GceManagerModel

/-- Shifting an existential over a window by one when the first index
fails the predicate. -/
theorem exists_succ_shift {P : Nat → Prop} {r : Nat} (h0 : ¬ P 0) :
    (∃ j, j < r ∧ P (j + 1)) ↔ ∃ j, j < r + 1 ∧ P j := by
  constructor
  · rintro ⟨j, hj, h⟩
    exact ⟨j + 1, by omega, h⟩
  · rintro ⟨j, hj, h⟩
    cases j with
    | zero => exact absurd h h0
    | succ k => exact ⟨k, by omega, h⟩

/-- The wait loop succeeds exactly when some poll inside the remaining
window reports DONE. -/
theorem waitForOpAux_done_iff (env : CloudEnv) (p z : String)
    (op : GceOperation) :
    ∀ rem i polls,
      ((waitForOpAux env p z op rem i polls).2 = none ↔
        ∃ j, j < rem ∧
          env.getZoneOperation p z op.name (i + j) = .ok "DONE") := by
  intro rem
  induction rem with
  | zero =>
    intro i polls
    simp [waitForOpAux]
  | succ r ih =>
    intro i polls
    have hshift : ∀ j : Nat, i + 1 + j = i + (j + 1) := by
      intro j
      omega
    rcases hp : env.getZoneOperation p z op.name i with e | status
    · have hstep : waitForOpAux env p z op (r + 1) i polls =
          waitForOpAux env p z op r (i + 1) (polls + 1) := by
        rw [waitForOpAux]
        simp [hp]
      rw [hstep, ih (i + 1) (polls + 1)]
      simp only [hshift]
      refine exists_succ_shift
        (P := fun j => env.getZoneOperation p z op.name (i + j) = .ok "DONE") ?_
      simp [hp]
    · by_cases hs : status = "DONE"
      · subst hs
        have hstep : waitForOpAux env p z op (r + 1) i polls =
            (polls + 1, none) := by
          rw [waitForOpAux]
          simp [hp]
        rw [hstep]
        refine iff_of_true rfl ⟨0, by omega, ?_⟩
        rw [Nat.add_zero]
        exact hp
      · have hstep : waitForOpAux env p z op (r + 1) i polls =
            waitForOpAux env p z op r (i + 1) (polls + 1) := by
          rw [waitForOpAux]
          simp [hp, hs]
        rw [hstep, ih (i + 1) (polls + 1)]
        simp only [hshift]
        refine exists_succ_shift
          (P := fun j => env.getZoneOperation p z op.name (i + j) = .ok "DONE") ?_
        simp only [Nat.add_zero, hp]
        intro hcontra
        exact hs (by injection hcontra)

end GceManagerModel

namespace GceManagerModel

/-- The only error the wait loop can return is the timeout message. -/
theorem waitForOpAux_timeout_msg (env : CloudEnv) (p z : String)
    (op : GceOperation) :
    ∀ rem i polls msg,
      (waitForOpAux env p z op rem i polls).2 = some msg →
      msg = waitTimeoutMsg op := by
  intro rem
  induction rem with
  | zero =>
    intro i polls msg h
    rw [waitForOpAux] at h
    simp at h
    exact h.symm
  | succ r ih =>
    intro i polls msg h
    rcases hp : env.getZoneOperation p z op.name i with e | status
    · rw [waitForOpAux] at h
      simp only [hp] at h
      exact ih _ _ _ h
    · by_cases hs : status = "DONE"
      · subst hs
        rw [waitForOpAux] at h
        simp [hp] at h
      · rw [waitForOpAux] at h
        simp only [hp, if_neg hs] at h
        exact ih _ _ _ h

/-- A DONE report at the current poll index ends the loop at once with a
single additional status check. -/
theorem waitForOpAux_first_done (env : CloudEnv) (p z : String)
    (op : GceOperation) (rem i polls : Nat) (hrem : rem ≠ 0)
    (h : env.getZoneOperation p z op.name i = .ok "DONE") :
    waitForOpAux env p z op rem i polls = (polls + 1, none) := by
  cases rem with
  | zero => exact absurd rfl hrem
  | succ r =>
    rw [waitForOpAux]
    simp [h]

/-- C7: waitForOp succeeds if and only if some status poll within the
fixed window (operationWaitTimeout divided by operationPollInterval poll
instants) reports the terminal DONE value; the only error it ever returns
is the timeout message naming the operation and its target (transient
poll errors are tolerated and re-polled, never returned); and a DONE
report on the very first poll returns success after exactly one status
check. -/
theorem waitForOp_spec (env : CloudEnv) (project zone : String)
    (op : GceOperation) :
    ((waitForOp env project zone op).2 = none ↔
       ∃ i, i < pollIterations ∧
         env.getZoneOperation project zone op.name i = .ok "DONE") ∧
    (∀ msg, (waitForOp env project zone op).2 = some msg →
       msg = waitTimeoutMsg op) ∧
    (env.getZoneOperation project zone op.name 0 = .ok "DONE" →
       waitForOp env project zone op = (1, none)) := by
  refine ⟨?_, ?_, ?_⟩
  · have h := waitForOpAux_done_iff env project zone op pollIterations 0 0
    simpa [waitForOp] using h
  · intro msg h
    exact waitForOpAux_timeout_msg env project zone op pollIterations 0 0 msg h
  · intro h
    have hd := waitForOpAux_first_done env project zone op pollIterations 0 0
      (by decide) h
    simpa [waitForOp] using hd

/-- Witness for C7 at a concrete input: an environment reporting DONE at
once yields success with exactly one status check. -/
theorem waitForOp_spec_witness :
    waitForOp envDoneAtOnce "p" "z" opSample = (1, none) :=
  (waitForOp_spec envDoneAtOnce "p" "z" opSample).2.2 rfl

end GceManagerModel

namespace GceManagerModel

/-- Counterexample to C4 as stated: a non-empty input whose only instance
fails to resolve to any group. The claim requires a cross-group-deletion
error; the code instead passes the same-group check (nil equals nil) and
reaches the request-building nil dereference, returning no
cross-group-deletion error. -/
theorem deleteInstances_unresolved_counterexample :
    (DeleteInstances envTrivial initialManager [instanceY]).outcome =
      .nilMigPanic ∧
    (DeleteInstances envTrivial initialManager [instanceY]).outcome ≠
      .crossGroupError := by decide

/-- C4 (amended): on a non-empty input, the cross-group error, the
nil-group dereference and any lookup error are all raised before any
mutating cloud request is issued (zero such requests); the single batch
delete request is issued exactly when the first instance's lookup
resolves to an actual group and the per-instance check loop passes with
every instance resolving to that same group — in particular, when every
instance fails to resolve, the check passes with no group and the code
reaches a nil dereference rather than returning the cross-group error. -/
theorem deleteInstances_amended_spec (env : CloudEnv) (m : GceManager)
    (first : GceRef) (rest : List GceRef) :
    ((DeleteInstances env m (first :: rest)).outcome = .crossGroupError →
       (DeleteInstances env m (first :: rest)).mutatingCalls = 0) ∧
    ((DeleteInstances env m (first :: rest)).outcome = .nilMigPanic →
       (DeleteInstances env m (first :: rest)).mutatingCalls = 0) ∧
    (∀ e, (DeleteInstances env m (first :: rest)).outcome = .lookupError e →
       (DeleteInstances env m (first :: rest)).mutatingCalls = 0) ∧
    ((DeleteInstances env m (first :: rest)).mutatingCalls ≠ 0 →
       ∃ g, (GetMigForInstance env m first).result = .ok (some g) ∧
         (deleteCheckLoop env (GetMigForInstance env m first).manager
             (GetMigForInstance env m first).regenCalls (some g)
             (first :: rest)).2.2 = none) ∧
    (∀ g, (GetMigForInstance env m first).result = .ok (some g) →
       (deleteCheckLoop env (GetMigForInstance env m first).manager
           (GetMigForInstance env m first).regenCalls (some g)
           (first :: rest)).2.2 = none →
       (DeleteInstances env m (first :: rest)).mutatingCalls = 1) := by
  rcases h0 : (GetMigForInstance env m first).result with e0 | og
  · have hD : DeleteInstances env m (first :: rest) =
        { manager := (GetMigForInstance env m first).manager,
          regenCalls := (GetMigForInstance env m first).regenCalls,
          mutatingCalls := 0, outcome := .lookupError e0 } := by
      simp [DeleteInstances, h0]
    refine ⟨by simp [hD], by simp [hD], by simp [hD], by simp [hD], ?_⟩
    intro g hg
    simp at hg
  · rcases hloop : deleteCheckLoop env (GetMigForInstance env m first).manager
        (GetMigForInstance env m first).regenCalls og (first :: rest) with
      ⟨m1, regens, oOut⟩
    rcases oOut with _ | out
    · rcases og with _ | cm
      · have hD : DeleteInstances env m (first :: rest) =
            { manager := m1, regenCalls := regens, mutatingCalls := 0,
              outcome := .nilMigPanic } := by
          simp [DeleteInstances, h0, hloop]
        refine ⟨by simp [hD], by simp [hD], by simp [hD], by simp [hD], ?_⟩
        intro g hg
        simp at hg
      · rcases hdel : env.deleteInstancesCall cm.gceRef
            ((first :: rest).map (fun i => GenerateInstanceUrl i.project
              i.zone i.name)) with edel | op
        · have hD : DeleteInstances env m (first :: rest) =
              { manager := m1, regenCalls := regens, mutatingCalls := 1,
                outcome := .requestError edel } := by
            simp only [DeleteInstances, h0, hloop]
            rw [hdel]
          refine ⟨by simp [hD], by simp [hD], by simp [hD], ?_, ?_⟩
          · intro _
            exact ⟨cm, rfl, by simp [hloop]⟩
          · intro g hg hl
            simp [hD]
        · rcases hwait : waitForOp env cm.gceRef.project cm.gceRef.zone op with
            ⟨polls, oerr⟩
          rcases oerr with _ | ewait
          · have hD : DeleteInstances env m (first :: rest) =
                { manager := m1, regenCalls := regens, mutatingCalls := 1,
                  outcome := .success } := by
              simp only [DeleteInstances, h0, hloop]
              rw [hdel]
              simp [hwait]
            refine ⟨by simp [hD], by simp [hD], by simp [hD], ?_, ?_⟩
            · intro _
              exact ⟨cm, rfl, by simp [hloop]⟩
            · intro g hg hl
              simp [hD]
          · have hD : DeleteInstances env m (first :: rest) =
                { manager := m1, regenCalls := regens, mutatingCalls := 1,
                  outcome := .opTimeout ewait } := by
              simp only [DeleteInstances, h0, hloop]
              rw [hdel]
              simp [hwait]
            refine ⟨by simp [hD], by simp [hD], by simp [hD], ?_, ?_⟩
            · intro _
              exact ⟨cm, rfl, by simp [hloop]⟩
            · intro g hg hl
              simp [hD]
    · have hD : DeleteInstances env m (first :: rest) =
          { manager := m1, regenCalls := regens, mutatingCalls := 0,
            outcome := out } := by
        simp [DeleteInstances, h0, hloop]
      refine ⟨by simp [hD], by simp [hD], by simp [hD], by simp [hD], ?_⟩
      intro g hg hl
      simp at hg
      subst hg
      rw [hloop] at hl
      simp at hl

/-- Witness for C4 (amended) at a concrete input: one instance resolved
from the cache to its group, the check loop passing, and the single batch
delete request being issued. -/
theorem deleteInstances_amended_spec_witness :
    (DeleteInstances envDeleteOk managerCached [instanceW]).mutatingCalls = 1 :=
  (deleteInstances_amended_spec envDeleteOk managerCached instanceW []).2.2.2.2
    mig1 (by decide) (by decide)

end GceManagerModel

namespace GceManagerModel

/-- Replacing the config of every record matching one identity does not
change, for any identity r, how many records match r. -/
theorem countP_replace_eq (migs : List migInformation) (g : Mig) (r : GceRef) :
    ((migs.map (fun mi =>
        if mi.config.gceRef = g.gceRef then { mi with config := g } else mi)).countP
          (fun mi => decide (mi.config.gceRef = r))) =
      migs.countP (fun mi => decide (mi.config.gceRef = r)) := by
  induction migs with
  | nil => rfl
  | cons mi rest ih =>
    by_cases h : mi.config.gceRef = g.gceRef <;>
      simp [List.countP_cons, h, ih]

/-- How registerCore changes the number of records matching an identity:
an update keeps all counts; a fresh append adds one for the new identity. -/
theorem registerCore_countP (migs : List migInformation) (g : Mig) (r : GceRef) :
    (registerCore migs g).countP (fun mi => decide (mi.config.gceRef = r)) =
      if migs.any (fun mi => decide (mi.config.gceRef = g.gceRef)) then
        migs.countP (fun mi => decide (mi.config.gceRef = r))
      else
        migs.countP (fun mi => decide (mi.config.gceRef = r)) +
          (if r = g.gceRef then 1 else 0) := by
  unfold registerCore
  by_cases hu : migs.any (fun mi => decide (mi.config.gceRef = g.gceRef)) = true
  · simp only [hu, if_true]
    exact countP_replace_eq migs g r
  · simp only [eq_false_of_ne_true hu, if_false, Bool.false_eq_true]
    rw [List.countP_append, countP_replace_eq migs g r]
    by_cases hr : r = g.gceRef
    · simp [List.countP_cons, hr]
    · have hgr : ¬ g.gceRef = r := fun h => hr h.symm
      simp [List.countP_cons, hr, hgr]

end GceManagerModel

namespace GceManagerModel

/-- find? skips an appended tail in which nothing matches. -/
theorem find_append_right_none {α : Type} (p : α → Bool) (t : List α)
    (h : t.find? p = none) :
    ∀ l : List α, (l ++ t).find? p = l.find? p := by
  intro l
  induction l with
  | nil => simpa using h
  | cons a l2 ih =>
    rcases ha : p a with _ | _ <;> simp [List.find?_cons, ha, ih]

/-- find? moves to an appended tail when nothing in the front matches. -/
theorem find_append_left_none {α : Type} (p : α → Bool) :
    ∀ l t : List α, l.find? p = none → (l ++ t).find? p = t.find? p := by
  intro l
  induction l with
  | nil =>
    intro t _
    rfl
  | cons a l2 ih =>
    intro t h
    rcases ha : p a with _ | _
    · simp only [List.cons_append, List.find?_cons, ha] at h ⊢
      exact ih t h
    · simp [List.find?_cons, ha] at h

/-- For an identity different from the updated one, the first matching
record's config is unchanged by the config-replacing map. -/
theorem find_replace_eq_of_ne (migs : List migInformation) (g : Mig)
    (r : GceRef) (hne : r ≠ g.gceRef) :
    (((migs.map (fun mi =>
        if mi.config.gceRef = g.gceRef then { mi with config := g } else mi)).find?
          (fun mi => decide (mi.config.gceRef = r))).map (fun mi => mi.config)) =
      ((migs.find? (fun mi => decide (mi.config.gceRef = r))).map
        (fun mi => mi.config)) := by
  induction migs with
  | nil => rfl
  | cons mi rest ih =>
    simp only [List.map_cons]
    by_cases h : mi.config.gceRef = g.gceRef
    · have hgr : ¬ g.gceRef = r := fun hh => hne hh.symm
      have hmr : ¬ mi.config.gceRef = r := by
        rw [h]
        exact hgr
      rw [if_pos h]
      rw [List.find?_cons, List.find?_cons]
      rw [show (decide ((({ mi with config := g } : migInformation)).config.gceRef = r)) =
            false from decide_eq_false hgr]
      rw [show (decide ((mi.config.gceRef = r))) = false from decide_eq_false hmr]
      exact ih
    · rw [if_neg h]
      rw [List.find?_cons, List.find?_cons]
      rcases hmr : decide (mi.config.gceRef = r) with _ | _
      · exact ih
      · rfl

/-- When some record matches the updated identity, the first record
matching it after the config-replacing map carries the new config. -/
theorem find_replace_eq_self (migs : List migInformation) (g : Mig)
    (hany : migs.any (fun mi => decide (mi.config.gceRef = g.gceRef)) = true) :
    (((migs.map (fun mi =>
        if mi.config.gceRef = g.gceRef then { mi with config := g } else mi)).find?
          (fun mi => decide (mi.config.gceRef = g.gceRef))).map
            (fun mi => mi.config)) = some g := by
  induction migs with
  | nil => simp at hany
  | cons mi rest ih =>
    simp only [List.map_cons]
    by_cases h : mi.config.gceRef = g.gceRef
    · rw [if_pos h]
      rw [List.find?_cons]
      rw [show (decide ((({ mi with config := g } : migInformation)).config.gceRef =
            g.gceRef)) = true from decide_eq_true rfl]
      rfl
    · simp only [List.any_cons, Bool.or_eq_true, decide_eq_true_eq] at hany
      rcases hany with hq | hq
      · exact absurd hq h
      · rw [if_neg h]
        rw [List.find?_cons]
        rw [show (decide ((mi.config.gceRef = g.gceRef))) = false from
              decide_eq_false h]
        exact ih hq

/-- How registerCore changes the first record matching an identity: the
updated identity now maps to the new config; every other identity keeps
its previous record. -/
theorem registerCore_find_config (migs : List migInformation) (g : Mig)
    (r : GceRef) :
    (((registerCore migs g).find? (fun mi => decide (mi.config.gceRef = r))).map
        (fun mi => mi.config)) =
      if r = g.gceRef then some g
      else ((migs.find? (fun mi => decide (mi.config.gceRef = r))).map
        (fun mi => mi.config)) := by
  unfold registerCore
  by_cases hu : migs.any (fun mi => decide (mi.config.gceRef = g.gceRef)) = true
  · simp only [hu, if_true]
    by_cases hr : r = g.gceRef
    · subst hr
      simp only [if_pos rfl]
      exact find_replace_eq_self migs g hu
    · simp only [if_neg hr]
      exact find_replace_eq_of_ne migs g r hr
  · simp only [eq_false_of_ne_true hu, Bool.false_eq_true, if_false]
    by_cases hr : r = g.gceRef
    · subst hr
      simp only [if_pos rfl]
      have hnone : (migs.map (fun mi =>
          if mi.config.gceRef = g.gceRef then { mi with config := g } else mi)).find?
            (fun mi => decide (mi.config.gceRef = g.gceRef)) = none := by
        rw [List.find?_eq_none]
        intro mi hmi
        rcases List.mem_map.mp hmi with ⟨mi0, hmi0, hrepl⟩
        by_cases h0 : mi0.config.gceRef = g.gceRef
        · exact absurd (List.any_eq_true.mpr ⟨mi0, hmi0, by simp [h0]⟩) hu
        · rw [if_neg h0] at hrepl
          subst hrepl
          simp [h0]
      rw [find_append_left_none _ _ _ hnone]
      rw [List.find?_cons]
      rw [show (decide ((({ config := g, basename := "" } : migInformation)).config.gceRef
            = g.gceRef)) = true from decide_eq_true rfl]
      rfl
    · simp only [if_neg hr]
      have hgr : ¬ g.gceRef = r := fun hh => hr hh.symm
      have hsing : (([{ config := g, basename := "" }] : List migInformation).find?
          (fun mi => decide (mi.config.gceRef = r))) = none := by
        rw [List.find?_cons]
        rw [show (decide ((({ config := g, basename := "" } : migInformation)).config.gceRef
              = r)) = false from decide_eq_false hgr]
        rfl
      rw [find_append_right_none _ _ hsing]
      exact find_replace_eq_of_ne migs g r hr

end GceManagerModel

namespace GceManagerModel

/-- Replacing configs of records matching one identity does not change
whether any record matches a given identity. -/
theorem any_replace_eq (migs : List migInformation) (g : Mig) (r : GceRef) :
    ((migs.map (fun mi =>
        if mi.config.gceRef = g.gceRef then { mi with config := g } else mi)).any
          (fun mi => decide (mi.config.gceRef = r))) =
      migs.any (fun mi => decide (mi.config.gceRef = r)) := by
  induction migs with
  | nil => rfl
  | cons mi rest ih =>
    by_cases h : mi.config.gceRef = g.gceRef <;>
      simp [List.any_cons, h, ih]

/-- registerCore leaves a record matching r present exactly when one was
present before or the new group's identity is r. -/
theorem registerCore_any (migs : List migInformation) (g : Mig) (r : GceRef) :
    ((registerCore migs g).any (fun mi => decide (mi.config.gceRef = r))) =
      (migs.any (fun mi => decide (mi.config.gceRef = r)) ||
        decide (g.gceRef = r)) := by
  unfold registerCore
  by_cases hu : migs.any (fun mi => decide (mi.config.gceRef = g.gceRef)) = true
  · rw [if_pos hu, any_replace_eq]
    by_cases hgr : g.gceRef = r
    · have hr : migs.any (fun mi => decide (mi.config.gceRef = r)) = true := by
        rcases List.any_eq_true.mp hu with ⟨mi, hmi, hp⟩
        refine List.any_eq_true.mpr ⟨mi, hmi, ?_⟩
        simp only [decide_eq_true_eq] at hp ⊢
        rw [hp, hgr]
      simp [hr]
    · simp [hgr]
  · rw [if_neg hu, List.any_append, any_replace_eq]
    simp [List.any_cons]

/-- The fold step of a registration sequence. -/
theorem registerAll_concat (tb : TemplateBuilder) (l : List Mig) (x : Mig) :
    registerAll tb (l ++ [x]) = (RegisterMig tb (registerAll tb l) x).1 := by
  unfold registerAll
  rw [List.foldl_append]
  rfl

/-- After a registration sequence from the empty registry, a record with
identity r exists exactly when some call registered identity r. -/
theorem registerAll_any (tb : TemplateBuilder) (l : List Mig) (r : GceRef) :
    ((registerAll tb l).migs.any (fun mi => decide (mi.config.gceRef = r))) =
      l.any (fun x => decide (x.gceRef = r)) := by
  induction l using List.reverseRecOn generalizing r with
  | nil => rfl
  | append_singleton l x ih =>
    rw [registerAll_concat]
    have hmigs : (RegisterMig tb (registerAll tb l) x).1.migs =
        registerCore (registerAll tb l).migs x := rfl
    rw [hmigs, registerCore_any, ih r, List.any_append]
    simp [List.any_cons, decide_eq_true_eq, eq_comm]

/-- After a registration sequence from the empty registry, the registry
holds exactly one record per registered identity and none for others. -/
theorem registerAll_countP (tb : TemplateBuilder) (l : List Mig) (r : GceRef) :
    ((registerAll tb l).migs.countP (fun mi => decide (mi.config.gceRef = r))) =
      if l.any (fun x => decide (x.gceRef = r)) then 1 else 0 := by
  induction l using List.reverseRecOn generalizing r with
  | nil => rfl
  | append_singleton l x ih =>
    rw [registerAll_concat]
    have hmigs : (RegisterMig tb (registerAll tb l) x).1.migs =
        registerCore (registerAll tb l).migs x := rfl
    rw [hmigs, registerCore_countP, registerAll_any tb l x.gceRef, ih r,
      List.any_append]
    by_cases hlx : l.any (fun y => decide (y.gceRef = x.gceRef)) = true
    · rw [if_pos hlx]
      by_cases hr : x.gceRef = r
      · have hany_r : l.any (fun y => decide (y.gceRef = r)) = true := by
          rcases List.any_eq_true.mp hlx with ⟨a, ha, hp⟩
          refine List.any_eq_true.mpr ⟨a, ha, ?_⟩
          simp only [decide_eq_true_eq] at hp ⊢
          rw [hp, hr]
        simp [hany_r]
      · have hx1 : ([x].any (fun y => decide (y.gceRef = r))) = false := by
          simp [hr]
        rw [hx1, Bool.or_false]
    · rw [if_neg hlx]
      have hlxf : l.any (fun y => decide (y.gceRef = x.gceRef)) = false :=
        eq_false_of_ne_true hlx
      by_cases hr : r = x.gceRef
      · subst hr
        rw [hlxf]
        simp
      · have hxr : ¬ x.gceRef = r := fun hh => hr hh.symm
        have hx1 : ([x].any (fun y => decide (y.gceRef = r))) = false := by
          simp [hxr]
        rw [hx1, Bool.or_false]
        simp [hr]

/-- After a registration sequence from the empty registry, the record of
identity r carries the config of the most recent registration with that
identity (the first match scanning the sequence backwards). -/
theorem registerAll_find_config (tb : TemplateBuilder) (l : List Mig)
    (r : GceRef) :
    (((registerAll tb l).migs.find? (fun mi => decide (mi.config.gceRef = r))).map
        (fun mi => mi.config)) =
      l.reverse.find? (fun x => decide (x.gceRef = r)) := by
  induction l using List.reverseRecOn generalizing r with
  | nil => rfl
  | append_singleton l x ih =>
    rw [registerAll_concat]
    have hmigs : (RegisterMig tb (registerAll tb l) x).1.migs =
        registerCore (registerAll tb l).migs x := rfl
    rw [hmigs, registerCore_find_config, List.reverse_append]
    by_cases hr : r = x.gceRef
    · rw [if_pos hr]
      simp [List.find?_cons, hr]
    · rw [if_neg hr, ih r]
      simp [List.find?_cons, show ¬ x.gceRef = r from fun hh => hr hh.symm]

/-- C6: after any sequence of RegisterMig calls from the empty registry,
the registry holds exactly one record for each distinct registered
identity (and none for identities never registered), the record's config
equals the most recent registration with that identity, and a further
RegisterMig call returns true exactly when its identity was never
registered before. -/
theorem registerMig_registry_spec (tb : TemplateBuilder) (l : List Mig)
    (r : GceRef) (g : Mig) :
    (((registerAll tb l).migs.countP (fun mi => decide (mi.config.gceRef = r))) =
       if l.any (fun x => decide (x.gceRef = r)) then 1 else 0) ∧
    (((findRecord (registerAll tb l) r).map (fun mi => mi.config)) =
       l.reverse.find? (fun x => decide (x.gceRef = r))) ∧
    ((RegisterMig tb (registerAll tb l) g).2 =
       !(l.any (fun x => decide (x.gceRef = g.gceRef)))) := by
  refine ⟨registerAll_countP tb l r, registerAll_find_config tb l r, ?_⟩
  have h2 : (RegisterMig tb (registerAll tb l) g).2 =
      !((registerAll tb l).migs.any
          (fun mi => decide (mi.config.gceRef = g.gceRef))) := rfl
  rw [h2, registerAll_any tb l g.gceRef]

end GceManagerModel
